import Mathlib

set_option maxRecDepth 100000

/-!
Shallow embedding of the message-submission pipeline of the
`ai-language-buddy` repository (MessageHandler class plus the helper
functions of `app.js`), together with theorems settling the claims of the
specification.

Modelling conventions:
  * JS strings are `String` / `List Char`; `Date.now()` values and stored
    timestamps are `Int` (JS numbers used as millisecond epochs).
  * The browser HTML escaping performed by assigning `textContent` and
    reading `innerHTML` is the standard text-node serialization: it
    rewrites the characters `&`, `<`, `>` and U+00A0 and leaves all other
    characters alone.
  * `String.prototype.replace` with a global case-insensitive pattern is a
    single left-to-right scan over the original string: at each position
    the pattern is tried; on a match the matched span is deleted and the
    scan resumes immediately after it, otherwise the character is kept and
    the scan advances one position.
  * Effects (Firestore writes, localStorage, the DOM container, the
    navigator online flag) are passed explicitly; fallible operations are
    `Except`-valued.
-/

/-! ### Sanitizer (MessageHandler.sanitizeMessage) -/

/-- One character of the browser text-node HTML escaping (`textContent`
assignment followed by `innerHTML` read). -/
def escChar (c : Char) : List Char :=
  if c = '&' then "&amp;".data
  else if c = '<' then "&lt;".data
  else if c = '>' then "&gt;".data
  else if c = '\u00A0' then "&nbsp;".data
  else [c]

/-- Browser HTML escaping of a whole string, character by character. -/
def escapeHtml : List Char → List Char
  | [] => []
  | c :: rest => escChar c ++ escapeHtml rest

/-- Case-insensitive match of the literal pattern `pat` at the head of
`s` (the `i` flag of the JS regexes; all pattern characters are ASCII). -/
def matchCI : List Char → List Char → Bool
  | [], _ => true
  | _ :: _, [] => false
  | p :: ps, c :: cs => p.toLower = c.toLower && matchCI ps cs

/-- Does the literal pattern `pat` occur (case-insensitively) anywhere in
`s`? -/
def occursCI (pat : List Char) : List Char → Bool
  | [] => matchCI pat []
  | c :: rest => matchCI pat (c :: rest) || occursCI pat rest

/-- One global-replace pass `s.replace(new RegExp(pat, 'gi'), '')` for a
literal pattern `p0 :: ps`: scan left to right, delete every
(non-overlapping) case-insensitive occurrence, resuming after each
deleted span. The first argument counts characters still to be skipped
because they belong to the occurrence deleted last (so the recursion is
structural in the string). -/
def removeCIAux (p0 : Char) (ps : List Char) : Nat → List Char → List Char
  | _, [] => []
  | k + 1, _ :: rest => removeCIAux p0 ps k rest
  | 0, c :: rest =>
    if matchCI (p0 :: ps) (c :: rest) then
      removeCIAux p0 ps ps.length rest
    else
      c :: removeCIAux p0 ps 0 rest

/-- Global-replace removal of a literal pattern (empty pattern: the JS
code never passes one; the scan is a no-op then). -/
def removeScheme (pat : List Char) (s : List Char) : List Char :=
  match pat with
  | [] => s
  | p0 :: ps => removeCIAux p0 ps 0 s

/-- The dangerous URL scheme literals of `MessageHandler.sanitizeMessage`. -/
def dangerousSchemes : List (List Char) :=
  ["javascript:".data, "data:".data, "vbscript:".data, "file:".data, "ftp:".data]

/-- JS `\w` (with the `i` flag; ASCII). -/
def isWordChar (c : Char) : Bool :=
  c.isAlphanum || c = '_'

/-- JS `\s` (the ASCII whitespace characters plus NBSP). -/
def isSpaceJS (c : Char) : Bool :=
  c = ' ' || c = '\t' || c = '\n' || c = '\r' || c = '\x0b' || c = '\x0c' || c = '\u00A0'

/-- Length of the maximal run of word characters at the head of the
string (`\w+` is greedy and the classes `\w`, `\s`, `=` are disjoint, so
the JS regex engine is deterministic here). -/
def chompWordLen : List Char → Nat
  | [] => 0
  | c :: rest => if isWordChar c then chompWordLen rest + 1 else 0

/-- Match `\s*=` at the head of the string; returns the number of
characters consumed. -/
def eqSignLen : List Char → Option Nat
  | [] => none
  | c :: rest =>
    if c = '=' then some 1
    else if isSpaceJS c then (eqSignLen rest).map (· + 1)
    else none

/-- Match `\w+\s*=` at the head of the string (the part of the
event-handler pattern after the literal `on`); returns the number of
characters consumed. -/
def wordEqLen (s : List Char) : Option Nat :=
  let w := chompWordLen s
  if w = 0 then none
  else (eqSignLen (s.drop w)).map (fun k => w + k)

/-- One global-replace pass of `/on\w+\s*=/gi`, in the same
skip-counter style as `removeCIAux`: on a match at `c1 :: c2 :: rest`
the whole span `on\w+\s*=` (that is, `c1`, `c2` and `m` further
characters) is deleted and the scan resumes after it. -/
def removeHandlersAux : Nat → List Char → List Char
  | _, [] => []
  | k + 1, _ :: rest => removeHandlersAux k rest
  | 0, [c] => [c]
  | 0, c1 :: c2 :: rest =>
    if c1.toLower = 'o' && c2.toLower = 'n' then
      match wordEqLen rest with
      | some m => removeHandlersAux (m + 1) (c2 :: rest)
      | none => c1 :: removeHandlersAux 0 (c2 :: rest)
    else
      c1 :: removeHandlersAux 0 (c2 :: rest)

/-- One global-replace pass of `/on\w+\s*=/gi`. -/
def removeHandlers (s : List Char) : List Char :=
  removeHandlersAux 0 s

/-- Does `/on\w+\s*=/i` match anywhere in the string? -/
def hasHandler : List Char → Bool
  | [] => false
  | [_] => false
  | c1 :: c2 :: rest =>
    if c1.toLower = 'o' && c2.toLower = 'n' then
      (wordEqLen rest).isSome || hasHandler (c2 :: rest)
    else
      hasHandler (c2 :: rest)

/-- `MessageHandler.sanitizeMessage`: HTML-escape via a temporary DOM
element, then strip each dangerous URL scheme with one global
case-insensitive replace pass, then strip inline event-handler patterns.
`if (!message) return ''` is the empty-string test for string inputs. -/
def sanitizeMessage (message : String) : String :=
  if message = "" then ""
  else
    let esc := escapeHtml message.data
    let noSchemes := dangerousSchemes.foldl (fun acc pat => removeScheme pat acc) esc
    String.mk (removeHandlers noSchemes)

/-! ### Validator (MessageHandler.validateMessageInputs) -/

/-- JS `String.prototype.trim`: strip leading and trailing whitespace. -/
def trimJS (s : String) : String :=
  String.mk (((s.data.dropWhile isSpaceJS).reverse.dropWhile isSpaceJS).reverse)

/-- `MessageHandler.validateMessageInputs`. For string-typed input the
JS guard `!message || typeof message !== 'string' ||
message.trim().length === 0` reduces to the trimmed string being empty,
and `!sender || !['user','ai'].includes(sender)` to the sender not being
one of the two roles. -/
def validateMessageInputs (message sender : String) : Except String Unit :=
  if trimJS message = "" then
    Except.error "Message must be a non-empty string"
  else if sender ≠ "user" ∧ sender ≠ "ai" then
    Except.error "Sender must be either user or ai"
  else if message.length > 5000 then
    Except.error "Message exceeds maximum length of 5000 characters"
  else
    Except.ok ()

/-! ### Rate limiter (MessageHandler.checkRateLimit) -/

/-- `rateLimit.maxMessages` of the MessageHandler constructor. -/
def maxMessages : Nat := 20

/-- `rateLimit.windowMs` of the MessageHandler constructor. -/
def windowMs : Int := 60000

/-- The filter predicate `now - timestamp < this.rateLimit.windowMs`. -/
def withinWindow (now t : Int) : Bool := now - t < windowMs

/-- `MessageHandler.checkRateLimit`. `stored` is the timestamp list held
in localStorage before the call; the result is the allow flag together
with the localStorage contents after the call. On the deny path the code
returns before `saveRateLimitData`, so the stored list is unchanged; on
the allow path the pruned list with the current time appended is saved. -/
def checkRateLimit (stored : List Int) (now : Int) : Bool × List Int :=
  if (stored.filter (withinWindow now)).length ≥ maxMessages then
    (false, stored)
  else
    (true, stored.filter (withinWindow now) ++ [now])

/-- A sequence of `checkRateLimit` calls at the given times, threading
the persisted timestamp list; returns the allow flags and the final
stored list. -/
def runCalls : List Int → List Int → List Bool × List Int
  | stored, [] => ([], stored)
  | stored, now :: rest =>
    let c := checkRateLimit stored now
    let r := runCalls c.2 rest
    (c.1 :: r.1, r.2)

example : sanitizeMessage "hola" = "hola" := by decide
example : sanitizeMessage "<" = "&lt;" := by decide
example : sanitizeMessage "&lt;" = "&amp;lt;" := by decide
example : sanitizeMessage "javajavascript:script:" = "javascript:" := by decide
example : sanitizeMessage "a onclick = b" = "a  b" := by decide
example : (checkRateLimit [0, 1] 2).1 = true := by decide
example : (checkRateLimit (List.replicate 20 (0 : Int)) 0).1 = false := by decide

/-! ### Persistence client (MessageHandler.saveWithRetry,
saveMessageWithRetry, saveMessageToFirestore) -/

/-- `retryConfig.maxRetries` of the MessageHandler constructor (and the
default `maxRetries` of `saveMessageWithRetry`). -/
def maxRetries : Nat := 3

/-- `retryConfig.baseDelay` (milliseconds). -/
def baseDelay : Nat := 1000

/-- `retryConfig.backoffMultiplier`. -/
def backoffMultiplier : Nat := 2

/-- The error surfaced when every attempt of a retry loop has failed;
it carries the last underlying cause (`lastError`). -/
inductive RetryErr (E : Type) where
  | persistenceFailed (last : E)

/-- Observable outcome of a retry loop: the final result, the number of
save attempts performed, and the list of back-off delays awaited (in
order, in milliseconds). -/
structure RetryRes (E : Type) where
  result : Except (RetryErr E) Unit
  attempts : Nat
  delays : List Nat

/-- The shared retry loop shape of `MessageHandler.saveWithRetry` and
`saveMessageWithRetry`: run attempt number `attempt` (whose outcome is
`save attempt`) with `remaining` retries left; on success stop; on
failure, if retries are left, wait `baseDelay * backoffMultiplier ^
attempt` ms and continue, otherwise surface the last cause. -/
def retryGo {E : Type} (save : Nat → Except E Unit) : Nat → Nat → RetryRes E
  | 0, attempt =>
    match save attempt with
    | Except.ok _ => ⟨Except.ok (), 1, []⟩
    | Except.error e => ⟨Except.error (RetryErr.persistenceFailed e), 1, []⟩
  | r + 1, attempt =>
    match save attempt with
    | Except.ok _ => ⟨Except.ok (), 1, []⟩
    | Except.error _ =>
      let d := baseDelay * backoffMultiplier ^ attempt
      let rest := retryGo save r (attempt + 1)
      ⟨rest.result, rest.attempts + 1, d :: rest.delays⟩

/-- `MessageHandler.saveWithRetry`, parametrized by the outcome of the
(dynamically bound) `window.saveMessageToFirestore` call on each attempt:
`for (attempt = 0; attempt <= maxRetries; attempt++)`. -/
def saveWithRetry {E : Type} (save : Nat → Except E Unit) : RetryRes E :=
  retryGo save maxRetries 0

/-- The ways an attempt body of `saveMessageWithRetry` can throw. -/
inductive SaveErr where
  | noNetwork
  | notAuthenticated
  | writeFail (msg : String)
deriving DecidableEq

/-- `saveMessageToFirestore` of `app.js`: returns early (resolving
normally) when `db` or `auth.currentUser` is missing; otherwise performs
the Firestore write inside its own `try`/`catch`, which logs any error
and falls through, so the function resolves normally in that case too.
`write` is the outcome of the Firestore operations in the `try` block. -/
def saveMessageToFirestore (hasDb hasUser : Bool) (write : Except String Unit) :
    Except String Unit :=
  if ¬ (hasDb && hasUser) then Except.ok ()
  else
    match write with
    | Except.ok _ => Except.ok ()
    | Except.error _ => Except.ok ()

/-- One attempt body of `saveMessageWithRetry`: throw when offline,
throw when unauthenticated, then `await saveMessageToFirestore(...)`
(whose own rejection would be wrapped as a write failure). -/
def saveAttempt (online hasAuth hasDb : Bool) (write : Except String Unit) :
    Except SaveErr Unit :=
  if ¬ online then Except.error SaveErr.noNetwork
  else if ¬ hasAuth then Except.error SaveErr.notAuthenticated
  else
    match saveMessageToFirestore hasDb hasAuth write with
    | Except.ok _ => Except.ok ()
    | Except.error e => Except.error (SaveErr.writeFail e)

/-- `saveMessageWithRetry` of `app.js` (`while (retryCount <= maxRetries)`
with delay `Math.pow(2, retryCount - 1) * 1000` before each retry, which
is `baseDelay * backoffMultiplier ^ attempt` for the failed attempt
index). -/
def saveMessageWithRetry (online hasAuth hasDb : Bool) (write : Except String Unit)
    (maxR : Nat) : RetryRes SaveErr :=
  retryGo (fun _ => saveAttempt online hasAuth hasDb write) maxR 0

/-! ### Offline queue (MessageHandler.processOfflineQueue) -/

/-- A queued offline message (`queueForOfflineSync` entry). -/
structure QueuedMsg where
  id : Nat
  message : String
  sender : String
  retryCount : Nat
deriving DecidableEq

/-- The loop body of `MessageHandler.processOfflineQueue` for one queued
message: a successful flush marks the id processed; a failed flush
increments `retryCount` in place and marks the id processed when the new
count has reached 5. Returns the (possibly mutated) item and whether its
id was added to `processed`. -/
def drainStep (flush : QueuedMsg → Bool) (m : QueuedMsg) : QueuedMsg × Bool :=
  if flush m then (m, true)
  else
    ({ m with retryCount := m.retryCount + 1 }, decide (m.retryCount + 1 ≥ 5))

/-- The `processed` id list accumulated by the drain loop of
`MessageHandler.processOfflineQueue`. -/
def drainProcessedIds (flush : QueuedMsg → Bool) (queue : List QueuedMsg) :
    List Nat :=
  ((queue.map (drainStep flush)).filter (fun x => x.2)).map (fun x => x.1.id)

/-- `MessageHandler.processOfflineQueue`: iterate over the queue with
`drainStep` (the flush outcome of `saveWithRetry` for each item given by
`flush`, which mutates `retryCount` in place and collects `processed`
ids), then remove every message whose id is in `processed`. -/
def processOfflineQueue (flush : QueuedMsg → Bool) (queue : List QueuedMsg) :
    List QueuedMsg :=
  ((queue.map (drainStep flush)).map (fun x => x.1)).filter
    (fun m => ! (drainProcessedIds flush queue).contains m.id)

/-! ### Message pipeline (MessageHandler.addMessage) -/

/-- The environment an `addMessage` call runs in: the clock, the
persisted rate-limit window, the DOM container, database/auth handles,
the navigator online flag, the auto-speak toggle and the per-attempt
outcome of the underlying Firestore save. -/
structure PipelineEnv where
  now : Int
  stored : List Int
  hasContainer : Bool
  canSave : Bool
  isOnline : Bool
  autoSpeakOn : Bool
  save : Nat → Except String Unit

/-- Observable outcome of an `addMessage` call. `ok` is the returned
boolean; `displayedText` is the message element text when one was
appended; `persistAttempts` counts Firestore save attempts; `queued`
records an offline enqueue; `stored` is the persisted rate-limit window
afterwards; `caughtErr` the error message handled by `handleError`. -/
structure PipelineOut where
  ok : Bool
  displayedText : Option String
  persistAttempts : Nat
  queued : Bool
  autoSpoke : Bool
  stored : List Int
  caughtErr : Option String

/-- The error message thrown on the rate-limit deny path. -/
def rateLimitErrMsg : String :=
  "Rate limit exceeded. Please wait before sending another message."

/-- The error message thrown by `displayMessage` when the chat container
is missing. -/
def containerErrMsg : String :=
  "Chat messages container not found in DOM"

/-- The message of the error thrown after retries are exhausted. -/
def persistFailMsg (e : String) : String :=
  "Failed to save message after " ++ toString maxRetries ++ " attempts: " ++ e

/-- `MessageHandler.handlePersistence`: skip when saving is impossible;
otherwise run `saveWithRetry`; on terminal failure enqueue for offline
sync when offline (swallowing the error) or re-throw when online.
Returns (save attempts, queued flag, re-thrown error). -/
def handlePersistence (env : PipelineEnv) : Nat × Bool × Option String :=
  if ¬ env.canSave then (0, false, none)
  else
    let r := saveWithRetry env.save
    match r.result with
    | Except.ok _ => (r.attempts, false, none)
    | Except.error (RetryErr.persistenceFailed e) =>
      if ¬ env.isOnline then (r.attempts, true, none)
      else (r.attempts, false, some (persistFailMsg e))

/-- `MessageHandler.addMessage`: validate, check the rate limit, sanitize,
display, persist (unless `shouldAutoSpeak` is `false`), auto-speak; any
error thrown along the way is caught by the top-level handler, which
reports it and makes the call return `false`. -/
def addMessage (message sender : String) (shouldAutoSpeak : Bool)
    (env : PipelineEnv) : PipelineOut :=
  match validateMessageInputs message sender with
  | Except.error e =>
    ⟨false, none, 0, false, false, env.stored, some e⟩
  | Except.ok _ =>
    let rl := checkRateLimit env.stored env.now
    if ¬ rl.1 then
      ⟨false, none, 0, false, false, rl.2, some rateLimitErrMsg⟩
    else
      let sanitized := sanitizeMessage message
      if ¬ env.hasContainer then
        ⟨false, none, 0, false, false, rl.2, some containerErrMsg⟩
      else if shouldAutoSpeak then
        match handlePersistence env with
        | (n, q, some e) => ⟨false, some sanitized, n, q, false, rl.2, some e⟩
        | (n, q, none) =>
          ⟨true, some sanitized, n, q,
            sender = "ai" && env.autoSpeakOn && shouldAutoSpeak, rl.2, none⟩
      else
        ⟨true, some sanitized, 0, false, false, rl.2, none⟩

/-- A fully healthy environment at clock 0: container present, database
and auth available, online, auto-speak off, all saves succeeding; the
persisted rate-limit window is the parameter. -/
def envAt (stored : List Int) : PipelineEnv :=
  ⟨0, stored, true, true, true, false, fun _ => Except.ok ()⟩

/-- One `displayMessage` call (`addMessage(message, sender, false)`) for a
historical message, returning the persisted rate-limit window it leaves
behind. -/
def displayOnlyStep (stored : List Int) : List Int :=
  (addMessage "hola" "user" false (envAt stored)).stored

/-- The rate-limit window after loading `n` historical messages in
display-only mode, starting from an empty window. -/
def displayOnlyIter : Nat → List Int
  | 0 => []
  | n + 1 => displayOnlyStep (displayOnlyIter n)

/-! ## Supporting lemmas -/

/-- On the deny path `checkRateLimit` returns before `saveRateLimitData`,
so the persisted window is untouched. -/
theorem checkRateLimit_deny_stored (stored : List Int) (now : Int)
    (h : (checkRateLimit stored now).1 = false) :
    (checkRateLimit stored now).2 = stored := by
  unfold checkRateLimit at h ⊢
  split at h <;> simp_all

/-- The age-based complement of `withinWindow`. -/
def expiredAt (now t : Int) : Bool := windowMs ≤ now - t

theorem not_withinWindow (now t : Int) :
    (! withinWindow now t) = expiredAt now t := by
  by_cases h : now - t < windowMs
  · have h2 : ¬ windowMs ≤ now - t := by omega
    simp [withinWindow, expiredAt, h, h2]
  · have h2 : windowMs ≤ now - t := by omega
    simp [withinWindow, expiredAt, h, h2]

/-- Splitting a list by a Boolean predicate splits its length. -/
theorem length_filter_bool_split (p : Int → Bool) (l : List Int) :
    (l.filter p).length + (l.filter (fun t => ! p t)).length = l.length := by
  induction l with
  | nil => simp
  | cons a l ih =>
    by_cases h : p a = true
    · simp [List.filter_cons, h]; omega
    · have h2 : p a = false := by revert h; cases p a <;> simp
      simp [List.filter_cons, h2]; omega

/-- A run of calls at times that are all inside the window relative to
every entry of the current state and to each other, with enough capacity
left, is entirely allowed and appends all the call times. -/
theorem runCalls_fresh (calls : List Int) : ∀ (s : List Int),
    (∀ x ∈ s, ∀ c ∈ calls, withinWindow c x = true) →
    (∀ c1 ∈ calls, ∀ c2 ∈ calls, withinWindow c2 c1 = true) →
    s.length + calls.length ≤ maxMessages →
    runCalls s calls = (List.replicate calls.length true, s ++ calls) := by
  induction calls with
  | nil => intro s _ _ _; simp [runCalls]
  | cons now rest ih =>
    intro s h1 h2 h3
    have hall : ∀ x ∈ s, withinWindow now x = true :=
      fun x hx => h1 x hx now (List.mem_cons_self _ _)
    have hfilter : s.filter (withinWindow now) = s :=
      List.filter_eq_self.mpr hall
    have hlen : s.length < maxMessages := by
      simp only [List.length_cons] at h3; omega
    have hstep : checkRateLimit s now = (true, s ++ [now]) := by
      unfold checkRateLimit
      rw [hfilter, if_neg (by omega)]
    have h1b : ∀ x ∈ s ++ [now], ∀ c ∈ rest, withinWindow c x = true := by
      intro x hx c hc
      rcases List.mem_append.mp hx with hx1 | hx1
      · exact h1 x hx1 c (List.mem_cons_of_mem _ hc)
      · have hx2 : x = now := by simpa using hx1
        rw [hx2]
        exact h2 now (List.mem_cons_self _ _) c (List.mem_cons_of_mem _ hc)
    have h2b : ∀ c1 ∈ rest, ∀ c2 ∈ rest, withinWindow c2 c1 = true :=
      fun c1 hc1 c2 hc2 =>
        h2 c1 (List.mem_cons_of_mem _ hc1) c2 (List.mem_cons_of_mem _ hc2)
    have h3b : (s ++ [now]).length + rest.length ≤ maxMessages := by
      simp only [List.length_append, List.length_cons, List.length_nil] at h3 ⊢
      omega
    have ih2 := ih (s ++ [now]) h1b h2b h3b
    simp only [runCalls, hstep, ih2]
    simp [List.replicate_succ, List.append_assoc]

/-- `runCalls` distributes over list append. -/
theorem runCalls_append (xs ys : List Int) : ∀ s : List Int,
    runCalls s (xs ++ ys) =
      ((runCalls s xs).1 ++ (runCalls (runCalls s xs).2 ys).1,
        (runCalls (runCalls s xs).2 ys).2) := by
  induction xs with
  | nil => intro s; simp [runCalls]
  | cons a xs ih => intro s; simp [runCalls, ih]

/-! ## Claims -/

/-- C7: the validator fails exactly on text that is empty after trimming,
or longer than 5000 units, or a sender outside the two roles `user` and
`ai`; on every other input it succeeds. (The embedding is a pure
function, so the no-side-effects part of the claim holds by
construction.) -/
theorem C7_validator_iff (text sender : String) :
    (∃ e, validateMessageInputs text sender = Except.error e) ↔
      (trimJS text = "" ∨ 5000 < text.length ∨
        (sender ≠ "user" ∧ sender ≠ "ai")) := by
  unfold validateMessageInputs
  split
  · simp_all
  · split
    · simp_all
    · split
      · simp_all
      · simp_all

/-- C9 (amended): on an allowed attempt the persisted window is the
pruned list plus the current time, so it holds no timestamp older than
the window; on a denied attempt the persisted window is left unchanged
(and may therefore retain expired timestamps, contrary to the claim as
stated). -/
theorem C9_window_persistence (stored : List Int) (now : Int) :
    ((checkRateLimit stored now).1 = true →
      ∀ t ∈ (checkRateLimit stored now).2, now - t < windowMs)
    ∧ ((checkRateLimit stored now).1 = false →
      (checkRateLimit stored now).2 = stored) := by
  constructor
  · intro h t ht
    by_cases hc : (stored.filter (withinWindow now)).length ≥ maxMessages
    · unfold checkRateLimit at h
      rw [if_pos hc] at h
      simp at h
    · unfold checkRateLimit at ht
      rw [if_neg hc] at ht
      rcases List.mem_append.mp ht with ht1 | ht1
      · have hw := (List.mem_filter.mp ht1).2
        simpa [withinWindow] using hw
      · have ht2 : t = now := by simpa using ht1
        subst ht2
        simp only [windowMs]
        omega
  · exact checkRateLimit_deny_stored stored now

/-- C9 counterexample: after this denied attempt the persisted window
still holds the timestamp 10000, which is 90000 ms old — older than the
60000 ms window — refuting the claim that after every attempt the
persisted window holds no timestamp older than the window. -/
theorem C9_counterexample :
    (checkRateLimit ((10000 : Int) :: List.replicate 20 90000) 100000).1 = false
    ∧ (10000 : Int) ∈ (checkRateLimit ((10000 : Int) :: List.replicate 20 90000) 100000).2
    ∧ ¬ ((100000 : Int) - 10000 < windowMs) := by decide

/-- C9 witness: an allowed attempt on the empty window persists `[0]`,
whose only entry is 0 ms old. -/
theorem C9_witness :
    (checkRateLimit (List.replicate 20 (0 : Int)) 0).2 = List.replicate 20 0 :=
  (C9_window_persistence (List.replicate 20 (0 : Int)) 0).2 (by decide)

/-- C6 (amended): `checkRateLimit` implements the sliding window per
call — it counts only the stored timestamps still inside the 60000 ms
window, allows exactly when that count is below 20, and then persists the
pruned list with the current time appended; pruning frees capacity by
exactly the number of expired entries; and starting from a state whose
timestamps are all expired at the first call, 20 calls within one window
are allowed and the 21st is denied. (The claim as stated quantifies the
20-allowed/21st-denied scenario over arbitrary starting states, which is
refuted by the counterexample.) -/
theorem C6_sliding_window :
    (∀ (stored : List Int) (now : Int),
        ((checkRateLimit stored now).1 = true ↔
          (stored.filter (withinWindow now)).length < maxMessages)
        ∧ ((checkRateLimit stored now).1 = true →
            (checkRateLimit stored now).2
              = stored.filter (withinWindow now) ++ [now]))
    ∧ (∀ (stored : List Int) (now : Int),
        (stored.filter (withinWindow now)).length
          + (stored.filter (expiredAt now)).length = stored.length)
    ∧ (∀ (stored : List Int) (first : Int) (mid : List Int) (last : Int),
        mid.length = 19 →
        (∀ x ∈ stored, expiredAt first x = true) →
        (∀ c ∈ mid, withinWindow c first = true) →
        (∀ c1 ∈ mid, ∀ c2 ∈ mid, withinWindow c2 c1 = true) →
        withinWindow last first = true →
        (∀ c ∈ mid, withinWindow last c = true) →
        (runCalls stored (first :: (mid ++ [last]))).1
          = List.replicate 20 true ++ [false]) := by
  refine ⟨fun stored now => ⟨⟨?_, ?_⟩, ?_⟩, fun stored now => ?_, ?_⟩
  · intro h
    by_cases hc : (stored.filter (withinWindow now)).length ≥ maxMessages
    · unfold checkRateLimit at h
      rw [if_pos hc] at h
      simp at h
    · omega
  · intro h
    unfold checkRateLimit
    rw [if_neg (by omega)]
  · intro h
    by_cases hc : (stored.filter (withinWindow now)).length ≥ maxMessages
    · unfold checkRateLimit at h
      rw [if_pos hc] at h
      simp at h
    · unfold checkRateLimit
      rw [if_neg hc]
  · have hfun : expiredAt now = fun t => ! withinWindow now t :=
      funext (fun t => (not_withinWindow now t).symm)
    rw [hfun]
    exact length_filter_bool_split (withinWindow now) stored
  · intro stored first mid last hmid hexp hmidfirst hmidpair hlastfirst hlastmid
    -- first call: every stored entry is pruned, so it is allowed
    have hfilter0 : stored.filter (withinWindow first) = [] := by
      rw [List.filter_eq_nil_iff]
      intro x hx
      have := hexp x hx
      simp [withinWindow, expiredAt, windowMs] at this ⊢
      omega
    have hstep0 : checkRateLimit stored first = (true, [first]) := by
      unfold checkRateLimit
      rw [hfilter0]
      simp [maxMessages]
    -- the next 19 calls are all fresh and fit in the window
    have hmidrun := runCalls_fresh mid [first]
      (by
        intro x hx c hc
        have hx1 : x = first := by simpa using hx
        rw [hx1]
        exact hmidfirst c hc)
      hmidpair
      (by simp [maxMessages, hmid])
    -- state after the twenty allowed calls
    have hfull : ([first] ++ mid).length = maxMessages := by
      simp [maxMessages, hmid]
    -- the final call keeps all twenty entries and is denied
    have hfilter20 : ([first] ++ mid).filter (withinWindow last) = [first] ++ mid := by
      rw [List.filter_eq_self]
      intro x hx
      rcases List.mem_append.mp hx with hx1 | hx1
      · have hx2 : x = first := by simpa using hx1
        rw [hx2]; exact hlastfirst
      · exact hlastmid x hx1
    have hstep20 : checkRateLimit ([first] ++ mid) last = (false, [first] ++ mid) := by
      unfold checkRateLimit
      rw [hfilter20, if_pos (by omega)]
    -- assemble the run
    simp only [runCalls, hstep0]
    rw [runCalls_append]
    rw [hmidrun]
    simp only [runCalls, hstep20, hmid]
    simp

/-- C6 counterexample: with a starting state of 20 fresh timestamps even
the first call within the window is denied, so it is not true that for
any starting state 20 calls within one window are allowed. -/
theorem C6_counterexample :
    (runCalls (List.replicate 20 (0 : Int)) [0]).1 = [false] := by decide

/-- C6 witness: a concrete run — stored window one expired entry, 21
calls all at time 0 — realizes the amended scenario. -/
theorem C6_witness :
    (runCalls [(-60000 : Int)]
        ((0 : Int) :: (List.replicate 19 (0 : Int) ++ [(0 : Int)]))).1
      = List.replicate 20 true ++ [false] :=
  C6_sliding_window.2.2 [(-60000 : Int)] 0 (List.replicate 19 (0 : Int)) 0
    (by decide) (by decide) (by decide) (by decide) (by decide) (by decide)

/-- HTML escaping leaves a string without escapable characters alone. -/
theorem escapeHtml_of_plain (s : List Char) (h : ∀ c ∈ s, escChar c = [c]) :
    escapeHtml s = s := by
  induction s with
  | nil => rfl
  | cons c rest ih =>
    have hc := h c (List.mem_cons_self _ _)
    have hrest := ih (fun x hx => h x (List.mem_cons_of_mem _ hx))
    simp [escapeHtml, hc, hrest]

/-- A removal pass for a pattern with no occurrence is the identity. -/
theorem removeCIAux_id (p0 : Char) (ps : List Char) (s : List Char)
    (h : occursCI (p0 :: ps) s = false) : removeCIAux p0 ps 0 s = s := by
  induction s with
  | nil => rfl
  | cons c rest ih =>
    have hsplit : matchCI (p0 :: ps) (c :: rest) = false
        ∧ occursCI (p0 :: ps) rest = false := by
      have h2 := h
      simp [occursCI] at h2
      exact h2
    simp [removeCIAux, hsplit.1, ih hsplit.2]

/-- A removal pass never lengthens the string. -/
theorem removeCIAux_length_le (p0 : Char) (ps : List Char) :
    ∀ (s : List Char) (k : Nat), (removeCIAux p0 ps k s).length ≤ s.length := by
  intro s
  induction s with
  | nil => intro k; simp [removeCIAux]
  | cons c rest ih =>
    intro k
    cases k with
    | succ k =>
      have := ih k
      simp only [removeCIAux]
      simp only [List.length_cons]
      omega
    | zero =>
      by_cases hm : matchCI (p0 :: ps) (c :: rest) = true
      · have := ih ps.length
        simp only [removeCIAux, hm, if_true]
        simp only [List.length_cons]
        omega
      · have hm2 : matchCI (p0 :: ps) (c :: rest) = false := by
          revert hm; cases matchCI (p0 :: ps) (c :: rest) <;> simp
        have := ih 0
        simp only [removeCIAux, hm2, Bool.false_eq_true, if_false, List.length_cons]
        omega

/-- A removal pass strictly shortens a string containing an occurrence. -/
theorem removeCIAux_length_lt (p0 : Char) (ps : List Char) (s : List Char)
    (h : occursCI (p0 :: ps) s = true) :
    (removeCIAux p0 ps 0 s).length < s.length := by
  induction s with
  | nil => simp [occursCI, matchCI] at h
  | cons c rest ih =>
    by_cases hm : matchCI (p0 :: ps) (c :: rest) = true
    · have hle := removeCIAux_length_le p0 ps rest ps.length
      simp only [removeCIAux, hm, if_true, List.length_cons]
      omega
    · have hm2 : matchCI (p0 :: ps) (c :: rest) = false := by
        revert hm; cases matchCI (p0 :: ps) (c :: rest) <;> simp
      have hocc : occursCI (p0 :: ps) rest = true := by
        have h2 := h
        simp [occursCI, hm2] at h2
        exact h2
      have := ih hocc
      simp only [removeCIAux, hm2, Bool.false_eq_true, if_false, List.length_cons]
      omega

/-- Pattern form of `removeCIAux_id` for `removeScheme`. -/
theorem removeScheme_id (pat s : List Char) (h : occursCI pat s = false) :
    removeScheme pat s = s := by
  cases pat with
  | nil => rfl
  | cons p0 ps => exact removeCIAux_id p0 ps s h

/-- Pattern form of `removeCIAux_length_lt` for `removeScheme`. -/
theorem removeScheme_length_lt (pat s : List Char) (hne : pat ≠ [])
    (h : occursCI pat s = true) : (removeScheme pat s).length < s.length := by
  cases pat with
  | nil => exact absurd rfl hne
  | cons p0 ps => exact removeCIAux_length_lt p0 ps s h

/-- A fold of occurrence-free removal passes is the identity. -/
theorem foldl_removeScheme_id (pats : List (List Char)) (s : List Char)
    (h : ∀ pat ∈ pats, occursCI pat s = false) :
    pats.foldl (fun acc pat => removeScheme pat acc) s = s := by
  induction pats with
  | nil => rfl
  | cons pat pats ih =>
    have h1 : removeScheme pat s = s :=
      removeScheme_id pat s (h pat (List.mem_cons_self _ _))
    simp only [List.foldl, h1]
    exact ih (fun q hq => h q (List.mem_cons_of_mem _ hq))

/-- A handler-removal pass on a string without the pattern is the
identity. -/
theorem removeHandlersAux_id (s : List Char) (h : hasHandler s = false) :
    removeHandlersAux 0 s = s := by
  induction s using hasHandler.induct with
  | case1 => rfl
  | case2 c => rfl
  | case3 c1 c2 rest hg ih =>
    have h2 := h
    simp only [hasHandler, hg, if_true, Bool.or_eq_false_iff] at h2
    have hw : wordEqLen rest = none := by
      cases hwe : wordEqLen rest with
      | none => rfl
      | some m => rw [hwe] at h2; simp at h2
    simp [removeHandlersAux, hg, hw, ih h2.2]
  | case4 c1 c2 rest hg ih =>
    have hg2 : (c1.toLower = 'o' && c2.toLower = 'n') = false := by
      revert hg; cases (c1.toLower = 'o' && c2.toLower = 'n') <;> simp
    have h2 := h
    simp only [hasHandler, hg2, Bool.false_eq_true, if_false] at h2
    simp [removeHandlersAux, hg2, ih h2]

/-- The whole sanitizer is the identity on inputs with no escapable
character, no scheme occurrence, and no event-handler pattern. -/
theorem sanitizeMessage_id (x : String)
    (h1 : ∀ c ∈ x.data, escChar c = [c])
    (h2 : ∀ pat ∈ dangerousSchemes, occursCI pat x.data = false)
    (h3 : hasHandler x.data = false) :
    sanitizeMessage x = x := by
  by_cases hx : x = ""
  · rw [hx]; rfl
  · unfold sanitizeMessage
    rw [if_neg hx]
    simp only [escapeHtml_of_plain x.data h1, foldl_removeScheme_id _ _ h2,
      removeHandlers, removeHandlersAux_id x.data h3]

/-- C3 (amended): the sanitizer is not idempotent in general (re-escaping
the ampersands its own HTML escaping produces changes the text — see the
counterexample); it is the identity, and hence idempotent, on every input
with no HTML-escapable character, no case-insensitive occurrence of a
dangerous scheme, and no inline event-handler pattern. -/
theorem C3_sanitizer_idempotent_on_plain (x : String)
    (h1 : ∀ c ∈ x.data, escChar c = [c])
    (h2 : ∀ pat ∈ dangerousSchemes, occursCI pat x.data = false)
    (h3 : hasHandler x.data = false) :
    sanitizeMessage x = x
    ∧ sanitizeMessage (sanitizeMessage x) = sanitizeMessage x := by
  have hid := sanitizeMessage_id x h1 h2 h3
  exact ⟨hid, by rw [hid]; exact hid⟩

/-- C3 counterexample: `sanitize("<") = "&lt;"` but
`sanitize(sanitize("<")) = "&amp;lt;"`, so `sanitize(sanitize(x))` is not
always `sanitize(x)`. -/
theorem C3_counterexample :
    sanitizeMessage (sanitizeMessage "<") ≠ sanitizeMessage "<" := by decide

/-- C3 witness: the hypotheses hold at `"hola"` and the sanitizer is
idempotent there. -/
theorem C3_witness :
    sanitizeMessage "hola" = "hola"
    ∧ sanitizeMessage (sanitizeMessage "hola") = sanitizeMessage "hola" :=
  C3_sanitizer_idempotent_on_plain "hola" (by decide) (by decide) (by decide)

/-- C8 (amended): each scheme-removal pass deletes every occurrence found
in its single left-to-right scan — it leaves occurrence-free text
unchanged and strictly shortens text containing an occurrence — but
deleting a span can splice the surrounding characters into a new
occurrence, so the sanitizer output can still contain a forbidden prefix
(see the counterexample). -/
theorem C8_scheme_removal (pat s : List Char) (hp : pat ∈ dangerousSchemes) :
    (occursCI pat s = false → removeScheme pat s = s)
    ∧ (occursCI pat s = true → (removeScheme pat s).length < s.length) := by
  have hne : pat ≠ [] := by
    simp only [dangerousSchemes, List.mem_cons, List.not_mem_nil, or_false] at hp
    rcases hp with h | h | h | h | h <;> subst h <;> decide
  exact ⟨removeScheme_id pat s, removeScheme_length_lt pat s hne⟩

/-- C8 counterexample: the sanitizer output for
`"javajavascript:script:"` is `"javascript:"`, which still contains the
forbidden prefix `javascript:`, refuting the claim that the output never
contains a forbidden scheme prefix in any case combination. -/
theorem C8_counterexample :
    sanitizeMessage "javajavascript:script:" = "javascript:"
    ∧ occursCI "javascript:".data (sanitizeMessage "javajavascript:script:").data
        = true := by decide

/-- C8 witness: the pass for `javascript:` leaves `"abc"` unchanged and
strictly shortens `"xJaVaScRiPt:y"`. -/
theorem C8_witness :
    removeScheme "javascript:".data "abc".data = "abc".data
    ∧ (removeScheme "javascript:".data "xJaVaScRiPt:y".data).length
        < ("xJaVaScRiPt:y".data).length :=
  ⟨(C8_scheme_removal "javascript:".data "abc".data (by decide)).1 (by decide),
    (C8_scheme_removal "javascript:".data "xJaVaScRiPt:y".data (by decide)).2
      (by decide)⟩

/-- Unfolding of a retry step when the attempt fails and retries remain. -/
theorem retryGo_succ_error {E : Type} (save : Nat → Except E Unit)
    (r attempt : Nat) (e : E) (h : save attempt = Except.error e) :
    retryGo save (r + 1) attempt =
      ⟨(retryGo save r (attempt + 1)).result,
        (retryGo save r (attempt + 1)).attempts + 1,
        (baseDelay * backoffMultiplier ^ attempt)
          :: (retryGo save r (attempt + 1)).delays⟩ := by
  simp [retryGo, h]

/-- A successful attempt stops the loop at once. -/
theorem retryGo_ok {E : Type} (save : Nat → Except E Unit) (r attempt : Nat)
    (h : save attempt = Except.ok ()) :
    retryGo save r attempt = ⟨Except.ok (), 1, []⟩ := by
  cases r <;> simp [retryGo, h]

/-- When every attempt fails, the loop makes `r + 1` attempts, waits the
exponential back-off delays, and surfaces the cause of the last attempt. -/
theorem retryGo_all_error {E : Type} (save : Nat → Except E Unit)
    (errs : Nat → E) :
    ∀ (r attempt : Nat),
    (∀ i, attempt ≤ i → i ≤ attempt + r → save i = Except.error (errs i)) →
    retryGo save r attempt
      = ⟨Except.error (RetryErr.persistenceFailed (errs (attempt + r))), r + 1,
          (List.range r).map (fun j => baseDelay * backoffMultiplier ^ (attempt + j))⟩ := by
  intro r
  induction r with
  | zero =>
    intro attempt h
    have h0 := h attempt le_rfl (by omega)
    simp [retryGo, h0]
  | succ r ih =>
    intro attempt h
    have h0 := h attempt le_rfl (by omega)
    have ih2 := ih (attempt + 1) (fun i hi1 hi2 => h i (by omega) (by omega))
    rw [retryGo_succ_error save r attempt (errs attempt) h0, ih2]
    have harith : attempt + 1 + r = attempt + (r + 1) := by omega
    rw [harith]
    have hdelays : (baseDelay * backoffMultiplier ^ attempt)
          :: (List.range r).map (fun j => baseDelay * backoffMultiplier ^ (attempt + 1 + j))
        = (List.range (r + 1)).map (fun j => baseDelay * backoffMultiplier ^ (attempt + j)) := by
      rw [List.range_succ_eq_map]
      simp only [List.map_cons, List.map_map, Function.comp, Nat.add_zero,
        Nat.succ_eq_add_one, List.cons.injEq, true_and]
      apply List.map_congr_left
      intro j hj
      have hj2 : attempt + 1 + j = attempt + j.succ := by omega
      simp only [Function.comp_apply]
      rw [hj2]
    rw [hdelays]

/-- When the first `k` attempts fail and attempt `k` succeeds, the loop
makes `k + 1` attempts, waiting the first `k` back-off delays. -/
theorem retryGo_skip_ok {E : Type} (save : Nat → Except E Unit)
    (errs : Nat → E) :
    ∀ (k r attempt : Nat), k ≤ r →
    (∀ i, attempt ≤ i → i < attempt + k → save i = Except.error (errs i)) →
    save (attempt + k) = Except.ok () →
    retryGo save r attempt
      = ⟨Except.ok (), k + 1,
          (List.range k).map (fun j => baseDelay * backoffMultiplier ^ (attempt + j))⟩ := by
  intro k
  induction k with
  | zero =>
    intro r attempt _ _ hok
    rw [Nat.add_zero] at hok
    rw [retryGo_ok save r attempt hok]
    simp
  | succ k ih =>
    intro r attempt hkr hfail hok
    cases r with
    | zero => omega
    | succ r =>
      have h0 := hfail attempt le_rfl (by omega)
      have hok2 : save (attempt + 1 + k) = Except.ok () := by
        have harith : attempt + 1 + k = attempt + (k + 1) := by omega
        rw [harith]; exact hok
      have ih2 := ih r (attempt + 1) (by omega)
        (fun i hi1 hi2 => hfail i (by omega) (by omega)) hok2
      rw [retryGo_succ_error save r attempt (errs attempt) h0, ih2]
      have hdelays : (baseDelay * backoffMultiplier ^ attempt)
            :: (List.range k).map (fun j => baseDelay * backoffMultiplier ^ (attempt + 1 + j))
          = (List.range (k + 1)).map (fun j => baseDelay * backoffMultiplier ^ (attempt + j)) := by
        rw [List.range_succ_eq_map]
        simp only [List.map_cons, List.map_map, Function.comp, Nat.add_zero,
          Nat.succ_eq_add_one, List.cons.injEq, true_and]
        apply List.map_congr_left
        intro j hj
        have hj2 : attempt + 1 + j = attempt + j.succ := by omega
        simp only [Function.comp_apply]
        rw [hj2]
      rw [hdelays]

/-- A loop whose attempts all throw the same error surfaces exactly that
error. -/
theorem retryGo_const_error {E : Type} (e : E) (save : Nat → Except E Unit)
    (hsave : ∀ i, save i = Except.error e) :
    ∀ (r attempt : Nat),
      (retryGo save r attempt).result
        = Except.error (RetryErr.persistenceFailed e) := by
  intro r
  induction r with
  | zero => intro attempt; simp [retryGo, hsave attempt]
  | succ r ih => intro attempt; simp [retryGo, hsave attempt, ih (attempt + 1)]

/-- C4: when every attempt fails, `saveWithRetry` performs the initial
attempt plus exactly `maxRetries = 3` retries, waiting
`baseDelay * backoffMultiplier ^ attempt` (1000, 2000, 4000 ms) before
each retry, and surfaces `PersistenceFailed` carrying the cause of the
last attempt; when attempt `k` is the first to succeed it stops
immediately after that single successful write, having waited only the
first `k` delays. -/
theorem C4_retry_policy {E : Type} (save : Nat → Except E Unit) (errs : Nat → E) :
    ((∀ i, i ≤ maxRetries → save i = Except.error (errs i)) →
      (saveWithRetry save).result
          = Except.error (RetryErr.persistenceFailed (errs maxRetries))
        ∧ (saveWithRetry save).attempts = maxRetries + 1
        ∧ (saveWithRetry save).delays = [1000, 2000, 4000])
    ∧ (∀ k, k ≤ maxRetries →
        (∀ i, i < k → save i = Except.error (errs i)) →
        save k = Except.ok () →
        (saveWithRetry save).result = Except.ok ()
        ∧ (saveWithRetry save).attempts = k + 1
        ∧ (saveWithRetry save).delays
            = (List.range k).map (fun i => baseDelay * backoffMultiplier ^ i)) := by
  constructor
  · intro h
    have key := retryGo_all_error save errs maxRetries 0
      (fun i _ h2 => h i (by simpa using h2))
    unfold saveWithRetry
    rw [key]
    refine ⟨by simp, rfl, ?_⟩
    show (List.range maxRetries).map (fun j => baseDelay * backoffMultiplier ^ (0 + j))
        = [1000, 2000, 4000]
    decide
  · intro k hk hfail hok
    have key := retryGo_skip_ok save errs k maxRetries 0 hk
      (fun i _ h2 => hfail i (by simpa using h2)) (by simpa using hok)
    unfold saveWithRetry
    rw [key]
    refine ⟨rfl, rfl, by simp⟩

/-- C4 witness: with all attempts failing the loop makes 4 attempts with
delays 1000, 2000, 4000 ms; with the first success at attempt 2 it makes
3 attempts. -/
theorem C4_witness :
    (saveWithRetry (fun _ => Except.error "boom")).attempts = 4
    ∧ (saveWithRetry (fun _ => Except.error "boom")).delays = [1000, 2000, 4000]
    ∧ (saveWithRetry
        (fun i => if i < 2 then Except.error "boom" else Except.ok ())).attempts
      = 3 := by
  refine ⟨?_, ?_, ?_⟩
  · exact ((C4_retry_policy (fun _ => Except.error "boom")
      (fun _ => "boom")).1 (fun i _ => rfl)).2.1
  · exact ((C4_retry_policy (fun _ => Except.error "boom")
      (fun _ => "boom")).1 (fun i _ => rfl)).2.2
  · exact ((C4_retry_policy
      (fun i => if i < 2 then Except.error "boom" else Except.ok ())
      (fun _ => "boom")).2 2 (by decide) (fun i hi => by simp [hi])
      (by norm_num)).2.1

/-- C10: `saveMessageToFirestore` swallows every remote-write failure in
its own try/catch and resolves normally for every input; consequently
`saveMessageWithRetry`, when online and authenticated, always stops after
a single attempt regardless of the write outcome (a failed store write is
reported as success), and any terminal `PersistenceFailed` it surfaces can
only carry a connectivity or authentication pre-check error. -/
theorem C10_swallowed_write_errors :
    (∀ (hasDb hasUser : Bool) (write : Except String Unit),
        saveMessageToFirestore hasDb hasUser write = Except.ok ())
    ∧ (∀ (hasDb : Bool) (write : Except String Unit) (maxR : Nat),
        (saveMessageWithRetry true true hasDb write maxR).result = Except.ok ()
        ∧ (saveMessageWithRetry true true hasDb write maxR).attempts = 1)
    ∧ (∀ (online hasAuth hasDb : Bool) (write : Except String Unit)
        (maxR : Nat) (e : SaveErr),
        (saveMessageWithRetry online hasAuth hasDb write maxR).result
            = Except.error (RetryErr.persistenceFailed e) →
        e = SaveErr.noNetwork ∨ e = SaveErr.notAuthenticated) := by
  refine ⟨?_, ?_, ?_⟩
  · intro hasDb hasUser write
    cases hasDb <;> cases hasUser <;> cases write <;> rfl
  · intro hasDb write maxR
    have hsa : saveAttempt true true hasDb write = Except.ok () := by
      cases hasDb <;> cases write <;> rfl
    have key := retryGo_ok (fun _ => saveAttempt true true hasDb write) maxR 0 hsa
    unfold saveMessageWithRetry
    rw [key]
    exact ⟨rfl, rfl⟩
  · intro online hasAuth hasDb write maxR e h
    cases online with
    | false =>
      have key := retryGo_const_error SaveErr.noNetwork
        (fun _ => saveAttempt false hasAuth hasDb write) (fun _ => rfl) maxR 0
      unfold saveMessageWithRetry at h
      rw [key] at h
      simp only [Except.error.injEq, RetryErr.persistenceFailed.injEq] at h
      exact Or.inl h.symm
    | true =>
      cases hasAuth with
      | false =>
        have key := retryGo_const_error SaveErr.notAuthenticated
          (fun _ => saveAttempt true false hasDb write) (fun _ => rfl) maxR 0
        unfold saveMessageWithRetry at h
        rw [key] at h
        simp only [Except.error.injEq, RetryErr.persistenceFailed.injEq] at h
        exact Or.inr h.symm
      | true =>
        have hsa : saveAttempt true true hasDb write = Except.ok () := by
          cases hasDb <;> cases write <;> rfl
        have key := retryGo_ok (fun _ => saveAttempt true true hasDb write)
          maxR 0 hsa
        unfold saveMessageWithRetry at h
        rw [key] at h
        simp at h

/-- C10 witness: a failing remote write is reported as success; online
and authenticated, the retry loop stops after one attempt; an offline run
surfaces exactly the connectivity pre-check error. -/
theorem C10_witness :
    saveMessageToFirestore true true (Except.error "boom") = Except.ok ()
    ∧ (saveMessageWithRetry true true true (Except.error "boom") 3).attempts = 1
    ∧ (SaveErr.noNetwork = SaveErr.noNetwork
        ∨ SaveErr.noNetwork = SaveErr.notAuthenticated) :=
  ⟨C10_swallowed_write_errors.1 true true (Except.error "boom"),
    (C10_swallowed_write_errors.2.1 true (Except.error "boom") 3).2,
    C10_swallowed_write_errors.2.2 false true true (Except.error "boom") 3
      SaveErr.noNetwork rfl⟩

/-- `drainStep` never changes a message id. -/
theorem drainStep_id_eq (flush : QueuedMsg → Bool) (m : QueuedMsg) :
    ((drainStep flush m).1).id = m.id := by
  unfold drainStep
  split <;> rfl

/-- `drainStep` on a successful flush. -/
theorem drainStep_flush_true (flush : QueuedMsg → Bool) (m : QueuedMsg)
    (h : flush m = true) : drainStep flush m = (m, true) := by
  simp [drainStep, h]

/-- `drainStep` on a failed flush. -/
theorem drainStep_flush_false (flush : QueuedMsg → Bool) (m : QueuedMsg)
    (h : flush m = false) :
    drainStep flush m
      = ({ m with retryCount := m.retryCount + 1 },
          decide (m.retryCount + 1 ≥ 5)) := by
  simp [drainStep, h]

/-- JS `Array.includes` (`List.contains`) is false exactly on
non-members. -/
theorem contains_false_iff_not_mem (l : List Nat) (a : Nat) :
    l.contains a = false ↔ ¬ a ∈ l := by
  rw [show l.contains a = List.elem a l from rfl, Bool.eq_false_iff]
  constructor
  · intro h hmem
    exact h (List.elem_iff.mpr hmem)
  · intro h he
    exact h (List.elem_iff.mp he)

/-- Characterization of the processed-id list. -/
theorem mem_drainProcessedIds (flush : QueuedMsg → Bool)
    (queue : List QueuedMsg) (i : Nat) :
    i ∈ drainProcessedIds flush queue ↔
      ∃ m1 ∈ queue, (drainStep flush m1).2 = true ∧ m1.id = i := by
  unfold drainProcessedIds
  constructor
  · intro hi
    obtain ⟨x, hx, hxid⟩ := List.mem_map.mp hi
    obtain ⟨hx1, hx2⟩ := List.mem_filter.mp hx
    obtain ⟨m1, hm1, hstep⟩ := List.mem_map.mp hx1
    refine ⟨m1, hm1, ?_, ?_⟩
    · rw [hstep]; exact hx2
    · rw [← drainStep_id_eq flush m1, hstep, hxid]
  · rintro ⟨m1, hm1, hstep, hid⟩
    apply List.mem_map.mpr
    refine ⟨drainStep flush m1, ?_, ?_⟩
    · exact List.mem_filter.mpr ⟨List.mem_map.mpr ⟨m1, hm1, rfl⟩, hstep⟩
    · rw [drainStep_id_eq flush m1]; exact hid

/-- Characterization of drain survivors. -/
theorem mem_processOfflineQueue (flush : QueuedMsg → Bool)
    (queue : List QueuedMsg) (x : QueuedMsg) :
    x ∈ processOfflineQueue flush queue ↔
      (∃ m1 ∈ queue, (drainStep flush m1).1 = x)
        ∧ ¬ x.id ∈ drainProcessedIds flush queue := by
  unfold processOfflineQueue
  constructor
  · intro hx
    obtain ⟨hx1, hx2⟩ := List.mem_filter.mp hx
    obtain ⟨y, hy, hyx⟩ := List.mem_map.mp hx1
    obtain ⟨m1, hm1, hstep⟩ := List.mem_map.mp hy
    refine ⟨⟨m1, hm1, by rw [hstep]; exact hyx⟩, ?_⟩
    exact (contains_false_iff_not_mem _ _).mp (by simpa using hx2)
  · rintro ⟨⟨m1, hm1, hstep⟩, hnotin⟩
    apply List.mem_filter.mpr
    constructor
    · exact List.mem_map.mpr ⟨drainStep flush m1,
        List.mem_map.mpr ⟨m1, hm1, rfl⟩, hstep⟩
    · simpa using (contains_false_iff_not_mem _ _).mpr hnotin

/-- C5: in a drain pass over a queue with distinct ids, a successfully
flushed item is removed; a failed flush increments the item's
`retryCount`, removing it when the new count reaches 5 and keeping the
incremented item otherwise; an item that enters with `retryCount ≥ 5` is
removed regardless of its flush outcome; and every surviving item is an
item of the input queue with a strictly larger `retryCount` that is still
below 5 — so `retryCount` only increases until removal. -/
theorem C5_offline_queue_drain (flush : QueuedMsg → Bool)
    (queue : List QueuedMsg) (hnd : (queue.map QueuedMsg.id).Nodup)
    (m : QueuedMsg) (hm : m ∈ queue) :
    (flush m = true → ∀ x ∈ processOfflineQueue flush queue, x.id ≠ m.id)
    ∧ (flush m = false → 5 ≤ m.retryCount + 1 →
        ∀ x ∈ processOfflineQueue flush queue, x.id ≠ m.id)
    ∧ (5 ≤ m.retryCount → ∀ x ∈ processOfflineQueue flush queue, x.id ≠ m.id)
    ∧ (flush m = false → m.retryCount + 1 < 5 →
        { m with retryCount := m.retryCount + 1 }
          ∈ processOfflineQueue flush queue)
    ∧ (∀ x ∈ processOfflineQueue flush queue,
        ∃ m0 ∈ queue, x.id = m0.id ∧ m0.retryCount < x.retryCount
          ∧ x.retryCount < 5) := by
  have hremoved : ∀ i, i ∈ drainProcessedIds flush queue →
      ∀ x ∈ processOfflineQueue flush queue, x.id ≠ i := by
    intro i hi x hx heq
    exact ((mem_processOfflineQueue flush queue x).mp hx).2 (heq ▸ hi)
  have hflushed : flush m = true → m.id ∈ drainProcessedIds flush queue := by
    intro hf
    exact (mem_drainProcessedIds flush queue m.id).mpr
      ⟨m, hm, by rw [drainStep_flush_true flush m hf], rfl⟩
  have hfailed5 : flush m = false → 5 ≤ m.retryCount + 1 →
      m.id ∈ drainProcessedIds flush queue := by
    intro hf h5
    refine (mem_drainProcessedIds flush queue m.id).mpr ⟨m, hm, ?_, rfl⟩
    rw [drainStep_flush_false flush m hf]
    simpa using h5
  refine ⟨?_, ?_, ?_, ?_, ?_⟩
  · intro hf
    exact hremoved m.id (hflushed hf)
  · intro hf h5
    exact hremoved m.id (hfailed5 hf h5)
  · intro h5
    cases hf : flush m with
    | true => exact hremoved m.id (hflushed hf)
    | false => exact hremoved m.id (hfailed5 hf (by omega))
  · intro hf hlt
    refine (mem_processOfflineQueue flush queue _).mpr
      ⟨⟨m, hm, by rw [drainStep_flush_false flush m hf]⟩, ?_⟩
    intro hin
    obtain ⟨m1, hm1, hstep, hid⟩ :=
      (mem_drainProcessedIds flush queue _).mp hin
    have hm1m : m1 = m :=
      List.inj_on_of_nodup_map hnd hm1 hm hid
    rw [hm1m, drainStep_flush_false flush m hf] at hstep
    have h5 : 5 ≤ m.retryCount + 1 := by simpa using hstep
    omega
  · intro x hx
    obtain ⟨⟨m1, hm1, hstep⟩, hnotin⟩ :=
      (mem_processOfflineQueue flush queue x).mp hx
    have hxid : x.id = m1.id := by
      rw [← hstep, drainStep_id_eq]
    cases hf : flush m1 with
    | true =>
      exfalso
      apply hnotin
      rw [hxid]
      exact (mem_drainProcessedIds flush queue m1.id).mpr
        ⟨m1, hm1, by rw [drainStep_flush_true flush m1 hf], rfl⟩
    | false =>
      have hx1 : x = { m1 with retryCount := m1.retryCount + 1 } := by
        rw [drainStep_flush_false flush m1 hf] at hstep
        exact hstep.symm
      have hnot5 : ¬ (5 ≤ m1.retryCount + 1) := by
        intro h5
        apply hnotin
        rw [hxid]
        refine (mem_drainProcessedIds flush queue m1.id).mpr ⟨m1, hm1, ?_, rfl⟩
        rw [drainStep_flush_false flush m1 hf]
        simpa using h5
      refine ⟨m1, hm1, hxid, ?_, ?_⟩
      · rw [hx1]
        show m1.retryCount < m1.retryCount + 1
        omega
      · rw [hx1]
        show m1.retryCount + 1 < 5
        omega

/-- C5 witness: draining a two-item queue where only id 1 flushes removes
item 1 and keeps item 2 with its `retryCount` incremented from 2 to 3. -/
theorem C5_witness :
    ({ id := 2, message := "b", sender := "ai", retryCount := 3 } : QueuedMsg)
      ∈ processOfflineQueue (fun q => decide (q.id = 1))
          [{ id := 1, message := "a", sender := "user", retryCount := 0 },
            { id := 2, message := "b", sender := "ai", retryCount := 2 }] :=
  (C5_offline_queue_drain (fun q => decide (q.id = 1))
      [{ id := 1, message := "a", sender := "user", retryCount := 0 },
        { id := 2, message := "b", sender := "ai", retryCount := 2 }]
      (by decide)
      { id := 2, message := "b", sender := "ai", retryCount := 2 }
      (by decide)).2.2.2.1 (by decide) (by decide)

/-- C1 (amended): on every outbound submission that the rate limiter
denies, `addMessage` aborts before rendering — the internal rate-limit
error is caught by the top-level handler, the call resolves `false`, the
message is NOT rendered to the UI (the rate-limit check precedes the
display step), no persistence is attempted, nothing is queued, and the
persisted window is unchanged. (The claim as stated says the message is
still rendered; the counterexample refutes that.) -/
theorem C1_rate_limited_submission (message sender : String)
    (env : PipelineEnv)
    (hv : validateMessageInputs message sender = Except.ok ())
    (hd : (checkRateLimit env.stored env.now).1 = false) :
    (addMessage message sender true env).ok = false
    ∧ (addMessage message sender true env).displayedText = none
    ∧ (addMessage message sender true env).persistAttempts = 0
    ∧ (addMessage message sender true env).queued = false
    ∧ (addMessage message sender true env).caughtErr = some rateLimitErrMsg
    ∧ (addMessage message sender true env).stored = env.stored := by
  have hstored := checkRateLimit_deny_stored env.stored env.now hd
  unfold addMessage
  rw [hv]
  simp [hd, hstored]

/-- C1 counterexample: with a full window the rate limiter denies the
submission, yet nothing is rendered — refuting the claim that the denied
message is still rendered to the UI. -/
theorem C1_counterexample :
    (checkRateLimit (envAt (List.replicate 20 0)).stored
        (envAt (List.replicate 20 0)).now).1 = false
    ∧ (addMessage "hi" "user" true (envAt (List.replicate 20 0))).displayedText
        = none := by decide

/-- C1 witness: the amended behavior at a concrete denied submission. -/
theorem C1_witness :
    (addMessage "hi" "user" true (envAt (List.replicate 20 0))).ok = false
    ∧ (addMessage "hi" "user" true
        (envAt (List.replicate 20 0))).persistAttempts = 0 :=
  ⟨(C1_rate_limited_submission "hi" "user" (envAt (List.replicate 20 0))
      (by rfl) (by decide)).1,
    (C1_rate_limited_submission "hi" "user" (envAt (List.replicate 20 0))
      (by rfl) (by decide)).2.2.1⟩

/-- C2: the code behavior at the failing input of the claim. A
display-only call (`shouldAutoSpeak = false`) indeed performs no
persistence attempt, but it still runs `checkRateLimit`: each allowed
display-only call appends to the persisted window (budget is consumed),
and after 20 display-only loads within one window the 21st historical
message is denied — `addMessage` returns `false` and the message is not
displayed — contradicting the claim that display-only mode cannot be
denied and leaves the window unchanged. -/
theorem C2_displayOnly_rate_limited :
    (addMessage "hola" "user" false (envAt [])).persistAttempts = 0
    ∧ (addMessage "hola" "user" false (envAt [])).stored = [0]
    ∧ (displayOnlyIter 20).length = 20
    ∧ (addMessage "hola" "user" false (envAt (displayOnlyIter 20))).ok = false
    ∧ (addMessage "hola" "user" false
        (envAt (displayOnlyIter 20))).displayedText = none := by
  decide
